import Mathlib

/-
  Verification development for `Datasources/Eneco/EnecoDataPrepare.py`.

  The script is a single-pass ETL utility built on pandas.  The embedding
  below models the parts of the program the claims are about:

  * a `DataFrame` is a list of column names together with a list of rows,
    a row being an association list from column name to cell value;
  * cell values are integers (epoch-second dates / int64 columns),
    floating-point numbers modelled as `Option ℚ` with `none` playing the
    role of NaN, or strings.  Binary floating point is abstracted by ℚ;
    `round(x, 3)` is modelled by rounding to the nearest multiple of
    1/1000 (Python rounds ties to even, the model rounds ties up; no
    claim exercises a tie);
  * fallible pandas operations (`df[col]` raising `KeyError`,
    `math.isnan` raising `TypeError` on non-numeric cells) return
    `Except PrepError`;
  * pandas aliasing is modelled explicitly: boolean-mask indexing
    (`df[series]`) copies, so `filterData` with a non-empty filter list
    yields a fresh frame, while with an empty filter list it returns the
    very frame it was given; `df.at[...] = ...` mutates that frame in
    place.  `generateImportDataFile` therefore returns, next to the
    produced output, the (possibly mutated) base frame, and the loop of
    `generateImportDataFiles` threads that base through the run.
-/

namespace EnecoDataPrepare

/-- Cell values of a pandas frame: int64 entries (`vInt`, also used for
epoch-second dates, a datetime being embedded by its epoch seconds),
float64 entries (`vNum`, with `none` standing for NaN) and strings. -/
inductive Value where
  | vInt (n : ℤ)
  | vNum (x : Option ℚ)
  | vStr (s : String)
  deriving DecidableEq

/-- A row of a frame: association list from column name to cell value. -/
abbrev Row := List (String × Value)

/-- Cell lookup by column name (first entry wins), as pandas `df.at[i, c]`
reads a cell. -/
def getCell : Row → String → Option Value
  | [], _ => none
  | p :: ps, c => if p.1 = c then some p.2 else getCell ps c

/-- Cell lookup defaulting a missing cell to NaN, as pandas yields NaN for
a cell a row never received. -/
def cellD (r : Row) (c : String) : Value :=
  (getCell r c).getD (Value.vNum none)

/-- Cell update by column name, as pandas `df.at[i, c] = v` overwrites the
cell of an existing column. -/
def setCell : Row → String → Value → Row
  | [], _, _ => []
  | p :: ps, c, v => (if p.1 = c then (p.1, v) else p) :: setCell ps c v

/-- A data frame: the column labels plus the row sequence. -/
structure DataFrame where
  cols : List String
  rows : List Row
  deriving DecidableEq

/-- Errors raised by the pandas calls the script performs: `KeyError`
from indexing a missing column, `TypeError` from `math.isnan` on a
non-numeric cell. -/
inductive PrepError where
  | columnNotFound (c : String)
  | typeErr
  deriving DecidableEq

/-- Equality of fallible results is decidable. -/
instance {e a : Type} [DecidableEq e] [DecidableEq a] : DecidableEq (Except e a) := fun x y =>
  match x, y with
  | .error u, .error v =>
    if h : u = v then .isTrue (by rw [h]) else .isFalse (by intro hh; cases hh; exact h rfl)
  | .error _, .ok _ => .isFalse (by intro hh; cases hh)
  | .ok _, .error _ => .isFalse (by intro hh; cases hh)
  | .ok u, .ok v =>
    if h : u = v then .isTrue (by rw [h]) else .isFalse (by intro hh; cases hh; exact h rfl)

/-- Python `str(...)` on a cell, as applied by `.astype(str)` in
`filterData` (line 87).  The rendering of numeric cells is abstracted
(`toString` of the model value); the claims only filter string cells. -/
def valueToStr : Value → String
  | .vInt n => toString n
  | .vNum none => "nan"
  | .vNum (some q) => toString q
  | .vStr s => s

/-- Regular expressions, modelling the fragment of Python `re` that the
pattern strings of this script's filters use.  The pattern string handed
to `Series.str.contains(..., regex = True)` is interpreted by the
external `re` library; it is embedded here as an abstract syntax tree. -/
inductive Regex where
  | eps
  | lit (c : Char)
  | dot
  | cat (a b : Regex)
  | alt (a b : Regex)
  deriving DecidableEq

/-- All remainders after the regex matched some prefix of the input. -/
def matchRem : Regex → List Char → List (List Char)
  | .eps, s => [s]
  | .lit _, [] => []
  | .lit c, x :: xs => if x = c then [xs] else []
  | .dot, [] => []
  | .dot, _ :: xs => [xs]
  | .cat a b, s => (matchRem a s).flatMap (matchRem b)
  | .alt a b, s => matchRem a s ++ matchRem b s

/-- Search semantics: try to match at every start position. -/
def searchFrom (r : Regex) : List Char → Bool
  | [] => !(matchRem r []).isEmpty
  | x :: xs => !(matchRem r (x :: xs)).isEmpty || searchFrom r xs

/-- Python `re.search` semantics, as used by
`Series.str.contains(pattern, regex = True)`: the string contains a match
of the pattern at some position (not a full match). -/
def reSearch (r : Regex) (s : String) : Bool :=
  searchFrom r s.data

/-- A pattern string without metacharacters denotes the concatenation of
its characters as literals. -/
def literalRe (s : String) : Regex :=
  s.data.foldr (fun c acc => Regex.cat (Regex.lit c) acc) Regex.eps

/-- `DataFilter` named tuple of the script (line 9): column name, pattern
(`value`, a regular expression) and inclusive/exclusive flag (`equal`). -/
structure DataFilter where
  column : String
  value : Regex
  equal : Bool
  deriving DecidableEq

/-- The per-row test a single filter performs (lines 87-91): the string
form of the cell contains a regex match of the pattern, inverted when the
filter is exclusive. -/
def filterTest (f : DataFilter) (r : Row) : Bool :=
  let b := reSearch f.value (valueToStr (cellD r f.column))
  if f.equal then b else !b

/-- `filterData` (lines 82-95): iterate the filters in order, each time
keeping the rows whose test holds, in their current order.  Indexing a
column absent from the frame raises `KeyError`. -/
def filterData (df : DataFrame) : List DataFilter → Except PrepError DataFrame
  | [] => .ok df
  | f :: fs =>
    if f.column ∈ df.cols then
      filterData ⟨df.cols, df.rows.filter (filterTest f)⟩ fs
    else .error (.columnNotFound f.column)

/-- Python `round(x, 3)`: round to the nearest multiple of 1/1000. -/
def round3 (x : ℚ) : ℚ :=
  ((round (x * 1000) : ℤ) : ℚ) / 1000

/-- The numeric reading of a cell, as `math.isnan` and `+` see it:
`some none` is NaN, `some (some q)` a number; a string cell has no
numeric reading (`math.isnan` raises `TypeError`). -/
def numValue : Value → Option (Option ℚ)
  | .vNum x => some x
  | .vInt n => some (some (n : ℚ))
  | .vStr _ => none

/-- The loop body state of `recalculateData`: thread the accumulated value
of the previous row (`none` before the first row, mirroring
`previousRowIndex = -1`).  Per row (lines 104-112): a NaN cell is first
overwritten with 0.0; then, when a previous row exists, the cell is
overwritten with `round(current + previous, 3)`. -/
def recalcAux (col : String) (prev : Option ℚ) : List Row → Except PrepError (List Row)
  | [] => .ok []
  | r :: rs =>
    match numValue (cellD r col) with
    | none => .error .typeErr
    | some x =>
      let r1 := match x with
        | none => setCell r col (.vNum (some 0))
        | some _ => r
      let v := x.getD 0
      match prev with
      | none => (recalcAux col (some v) rs).map (fun rs2 => r1 :: rs2)
      | some p =>
        let v2 := round3 (v + p)
        (recalcAux col (some v2) rs).map
          (fun rs2 => setCell r1 col (.vNum (some v2)) :: rs2)

/-- `recalculateData` (lines 99-114): make the value column increasing by
the sequential fold of `recalcAux`.  Reading `df.at[index, col]` with the
column absent raises `KeyError`. -/
def recalculateData (df : DataFrame) (col : String) : Except PrepError DataFrame :=
  if col ∈ df.cols then
    (recalcAux col none df.rows).map (fun rs => ⟨df.cols, rs⟩)
  else .error (.columnNotFound col)

/-- Name of the column containing the date of the reading (line 29). -/
def inputFileDateColumnName : String := "Datum"

/-- Days from 1970-01-01 to the civil date y-m-d (Gregorian calendar),
the arithmetic behind epoch timestamps of parsed dates. -/
def daysFromCivil (y m d : Nat) : ℤ :=
  let y2 := if m ≤ 2 then y - 1 else y
  let era := y2 / 400
  let yoe := y2 % 400
  let mp := (m + 9) % 12
  let doy := (153 * mp + 2) / 5 + d - 1
  let doe := yoe * 365 + yoe / 4 - yoe / 100 + doy
  ((era * 146097 + doe : Nat) : ℤ) - 719468

/-- Epoch seconds of a date written day-month-year, as
`pd.to_datetime(s, format = inputFileDateColumnFormat)` parses it
(midnight UTC of that civil day). -/
def dmyToEpochSeconds (d m y : Nat) : ℤ :=
  86400 * daysFromCivil y m d

/-- Epoch seconds of `strptime('01-01-1970', '%d-%m-%Y')`. -/
def lowerEpoch : ℤ := 0

/-- Epoch seconds of `strptime('31-12-2099', '%d-%m-%Y')`. -/
def upperEpoch : ℤ := 4102358400

/-- The date-sanity test of `prepareData` (line 67): the date cell is a
parsed date inside [1970-01-01, 2099-12-31].  A cell that is not a date
(NaT or otherwise) compares false on both bounds and is dropped. -/
def dateOK (dateCol : String) (r : Row) : Bool :=
  match getCell r dateCol with
  | some (.vInt t) => decide (lowerEpoch ≤ t ∧ t ≤ upperEpoch)
  | _ => false

/-- Sort key of `sort_values(by = inputFileDateColumnName)`. -/
def dateKey (dateCol : String) (r : Row) : ℤ :=
  match getCell r dateCol with
  | some (.vInt t) => t
  | _ => 0

/-- `prepareData` (lines 63-78): keep the rows whose date is inside the
sanity bound, then sort ascending by the date column.  The source sorts
via pandas `sort_values` with the default `kind = 'quicksort'`, an
algorithm pandas documents as not stable; the embedding uses insertion
sort, which agrees with the source up to the order of equal-date rows.
The subsequent epoch conversion (line 73) maps a datetime to its epoch
seconds, which is how dates are embedded already, and the injected
preparation code (line 76) is the empty string for this datasource, so
both are the identity here. -/
def prepareData (df : DataFrame) : DataFrame :=
  ⟨df.cols,
   List.insertionSort
     (fun a b => dateKey inputFileDateColumnName a ≤ dateKey inputFileDateColumnName b)
     (df.rows.filter (dateOK inputFileDateColumnName))⟩

/-- `OutputFileDefinition` named tuple of the script (line 16). -/
structure OutputFileDefinition where
  outputFileName : String
  valueColumnName : String
  dataFilters : List DataFilter
  recalculate : Bool
  deriving DecidableEq

/-- `DataFrame.filter(items)` as used on line 129: keep the listed
columns, in the order listed, dropping labels the frame does not have. -/
def projectCols (df : DataFrame) (cs : List String) : DataFrame :=
  let kept := cs.filter (fun c => decide (c ∈ df.cols))
  ⟨kept, df.rows.map (fun r => kept.map (fun c => (c, cellD r c)))⟩

/-- `generateImportDataFile` (lines 118-134).  Returns the produced
output frame (`none` when the value column is absent and the output is
skipped) together with the state of the base frame after the call:
`filterData` with a non-empty filter list builds the filtered frame by
boolean-mask indexing, which copies, but with an empty filter list its
loop never runs and it returns the base frame itself, so the in-place
cell writes of `recalculateData` then land in the shared base. -/
def generateImportDataFile (df : DataFrame) (d : OutputFileDefinition) :
    Except PrepError (Option DataFrame × DataFrame) :=
  if d.valueColumnName ∈ df.cols then
    match filterData df d.dataFilters with
    | .error e => .error e
    | .ok fdf =>
      if d.recalculate then
        match recalculateData fdf d.valueColumnName with
        | .error e => .error e
        | .ok rdf =>
          .ok (some (projectCols rdf [inputFileDateColumnName, d.valueColumnName]),
               if d.dataFilters.isEmpty then rdf else df)
      else
        .ok (some (projectCols fdf [inputFileDateColumnName, d.valueColumnName]), df)
  else
    .ok (none, df)

/-- The output loop of `generateImportDataFiles` (lines 188-190): produce
each configured output in order against the shared base frame, collecting
the written files as (file name, projected frame) pairs.  An uncaught
exception from one output aborts the whole run. -/
def runOutputs (df : DataFrame) : List OutputFileDefinition →
    Except PrepError (List (String × DataFrame))
  | [] => .ok []
  | d :: ds =>
    match generateImportDataFile df d with
    | .error e => .error e
    | .ok (none, df2) => runOutputs df2 ds
    | .ok (some out, df2) =>
      (runOutputs df2 ds).map (fun l => (d.outputFileName, out) :: l)

/-- The accumulation described by the spec, from the second row on: the
row's stored value becomes the previous row's accumulated total plus the
row's raw value (a missing/NaN value contributing 0.0), rounded to 3
decimal places after each addition. -/
def claimAccumGo (t : ℚ) : List (Option ℚ) → List ℚ
  | [] => []
  | v :: vs =>
    let t2 := round3 (t + v.getD 0)
    t2 :: claimAccumGo t2 vs

/-- The accumulation described by the spec: the first row's value is kept
unchanged (0.0 when missing/NaN) and becomes the running total, the rest
follows `claimAccumGo`. -/
def claimAccum : List (Option ℚ) → List ℚ
  | [] => []
  | v :: vs =>
    let t := v.getD 0
    t :: claimAccumGo t vs

/-- The numeric reading of the value column of a row, NaN for a cell
without one (only used where `math.isnan` cannot raise). -/
def rawVal (col : String) (r : Row) : Option ℚ :=
  (numValue (cellD r col)).getD none

/-- The value column of a frame, as numeric readings. -/
def colValues (df : DataFrame) (col : String) : List (Option ℚ) :=
  df.rows.map (rawVal col)

/-- The cell of the column is present and numeric (`math.isnan` and the
additions of `recalculateData` do not raise on it). -/
def numericCellB (col : String) (r : Row) : Bool :=
  (getCell r col).isSome && (numValue (cellD r col)).isSome

/-
  Concrete frames and output definitions used by the scenario parts of
  the claims, their witnesses and counterexamples.
-/

/-- Scenario A of the spec: three date-sorted rows with values 10, 5, NaN. -/
def dfScenarioA : DataFrame :=
  ⟨["Datum", "V"],
   [[("Datum", .vInt (dmyToEpochSeconds 1 1 2020)), ("V", .vNum (some 10))],
    [("Datum", .vInt (dmyToEpochSeconds 2 1 2020)), ("V", .vNum (some 5))],
    [("Datum", .vInt (dmyToEpochSeconds 3 1 2020)), ("V", .vNum none)]]⟩

/-- Two rows with non-negative values 10.0004 and 0: rounding the second
row's sum drops it below the unrounded first value. -/
def dfMono : DataFrame :=
  ⟨["Datum", "V"],
   [[("Datum", .vInt 0), ("V", .vNum (some (10 + 1 / 2500)))],
    [("Datum", .vInt 86400), ("V", .vNum (some 0))]]⟩

/-- Base frame shared by several output definitions. -/
def dfShared : DataFrame :=
  ⟨["Datum", "V"],
   [[("Datum", .vInt 0), ("V", .vNum (some 10))],
    [("Datum", .vInt 86400), ("V", .vNum (some 5))]]⟩

/-- An output definition with no filters and recalculation switched on. -/
def defRecalc : OutputFileDefinition := ⟨"out.csv", "V", [], true⟩

/-- Scenario B of the spec: rows whose Type column is High, Low, High. -/
def dfTypes : DataFrame :=
  ⟨["Datum", "Type"],
   [[("Datum", .vInt 0), ("Type", .vStr "High")],
    [("Datum", .vInt 1), ("Type", .vStr "Low")],
    [("Datum", .vInt 2), ("Type", .vStr "High")]]⟩

/-- Scenario B's single inclusive filter on the Type column. -/
def typeHighFilter : DataFilter := ⟨"Type", literalRe "High", true⟩

/-- An output definition whose value column exists in `dfShared`. -/
def defPlain : OutputFileDefinition := ⟨"plain.csv", "V", [], false⟩

/-- An output definition whose value column is absent from `dfShared`. -/
def defMissing : OutputFileDefinition := ⟨"missing.csv", "W", [], false⟩

/-- An output definition with an existing value column but a filter on a
column absent from `dfShared`. -/
def defBadFilter : OutputFileDefinition :=
  ⟨"bad.csv", "V", [⟨"Zzz", literalRe "x", true⟩], false⟩

/-- Scenario E of the spec: one row dated 01-01-1960, one dated 01-01-2020. -/
def dfSanity : DataFrame :=
  ⟨["Datum", "V"],
   [[("Datum", .vInt (dmyToEpochSeconds 1 1 1960)), ("V", .vNum (some 1))],
    [("Datum", .vInt (dmyToEpochSeconds 1 1 2020)), ("V", .vNum (some 2))]]⟩

/-
  Helper lemmas about rows, filtering and recalculation.  None of them is
  a claim's theorem; the claim theorems below derive from them.
-/

theorem getCell_setCell_ne (r : Row) (c c2 : String) (v : Value) (h : c2 ≠ c) :
    getCell (setCell r c v) c2 = getCell r c2 := by
  induction r with
  | nil => rfl
  | cons p ps ih =>
    simp only [setCell]
    by_cases hp : p.1 = c
    · simp [getCell, hp, Ne.symm h, ih]
    · simp only [if_neg hp]
      by_cases hq : p.1 = c2
      · simp [getCell, hq]
      · simp [getCell, hq, ih]

theorem getCell_setCell_self (r : Row) (c : String) (v : Value)
    (h : (getCell r c).isSome) : getCell (setCell r c v) c = some v := by
  induction r with
  | nil => simp [getCell] at h
  | cons p ps ih =>
    by_cases hp : p.1 = c
    · simp [setCell, getCell, hp]
    · simp only [getCell, if_neg hp] at h
      simp [setCell, getCell, hp, ih h]

theorem filterData_ok (cols : List String) (fs : List DataFilter)
    (h : ∀ f ∈ fs, f.column ∈ cols) :
    ∀ rows : List Row, filterData ⟨cols, rows⟩ fs =
      .ok ⟨cols, rows.filter (fun r => fs.all (fun g => filterTest g r))⟩ := by
  induction fs with
  | nil => intro rows; simp [filterData]
  | cons f fs ih =>
    intro rows
    have hf : f.column ∈ cols := h f (List.mem_cons_self f fs)
    have htail : ∀ g ∈ fs, g.column ∈ cols :=
      fun g hg => h g (List.mem_cons_of_mem f hg)
    simp only [filterData, if_pos hf]
    rw [ih htail]
    have hff : (rows.filter (filterTest f)).filter
          (fun r => fs.all (fun g => filterTest g r)) =
        rows.filter (fun r => (f :: fs).all (fun g => filterTest g r)) := by
      rw [List.filter_filter]
      exact List.filter_congr (fun r _ => by
        simp [List.all_cons, Bool.and_comm])
    rw [hff]

theorem filterData_err (cols : List String) (fs : List DataFilter)
    (h : ∃ f ∈ fs, f.column ∉ cols) :
    ∀ rows : List Row, ∃ e, filterData ⟨cols, rows⟩ fs = .error e := by
  induction fs with
  | nil => simp at h
  | cons f fs ih =>
    intro rows
    by_cases hf : f.column ∈ cols
    · obtain ⟨g, hg, hgc⟩ := h
      rcases List.mem_cons.1 hg with hgf | hgfs
      · exact absurd hf (by rw [← hgf]; exact hgc)
      · simpa [filterData, if_pos hf] using ih ⟨g, hgfs, hgc⟩ (rows.filter (filterTest f))
    · exact ⟨.columnNotFound f.column, by simp [filterData, hf]⟩

theorem filterData_cols (fs : List DataFilter) :
    ∀ (df df2 : DataFrame), filterData df fs = .ok df2 → df2.cols = df.cols := by
  induction fs with
  | nil =>
    intro df df2 h
    simp only [filterData, Except.ok.injEq] at h
    rw [← h]
  | cons f fs ih =>
    intro df df2 h
    by_cases hf : f.column ∈ df.cols
    · simp only [filterData, if_pos hf] at h
      exact ih ⟨df.cols, df.rows.filter (filterTest f)⟩ df2 h
    · simp [filterData, if_neg hf] at h

/-- All columns other than `col` read the same in both rows. -/
def otherColsEq (col : String) (r1 r2 : Row) : Prop :=
  ∀ c2, c2 ≠ col → getCell r2 c2 = getCell r1 c2

theorem forall₂_get {α β : Type} {R : α → β → Prop} :
    ∀ {l1 : List α} {l2 : List β}, List.Forall₂ R l1 l2 →
    ∀ i (h1 : i < l1.length) (h2 : i < l2.length),
      R (l1.get ⟨i, h1⟩) (l2.get ⟨i, h2⟩) := by
  intro l1 l2 h
  induction h with
  | nil => intro i h1 _; exact absurd h1 (by simp)
  | cons hr _ ih =>
    intro i h1 h2
    cases i with
    | zero => exact hr
    | succ n => exact ih n (Nat.lt_of_succ_lt_succ h1) (Nat.lt_of_succ_lt_succ h2)

theorem recalcAux_ok (col : String) :
    ∀ rs : List Row, (∀ r ∈ rs, numericCellB col r = true) →
    ∀ t : ℚ, ∃ rs2, recalcAux col (some t) rs = .ok rs2 ∧
      rs2.map (rawVal col) = (claimAccumGo t (rs.map (rawVal col))).map some ∧
      List.Forall₂ (otherColsEq col) rs rs2 := by
  intro rs
  induction rs with
  | nil => intro _ t; exact ⟨[], rfl, rfl, List.Forall₂.nil⟩
  | cons r rs ih =>
    intro h t
    have hr := h r (List.mem_cons_self r rs)
    rw [numericCellB, Bool.and_eq_true, Option.isSome_iff_exists, Option.isSome_iff_exists] at hr
    obtain ⟨⟨w, hg⟩, ⟨x, hx⟩⟩ := hr
    have hgsome : (getCell r col).isSome := by rw [hg]; rfl
    have htail := fun u hu => h u (List.mem_cons_of_mem r hu)
    rcases x with _ | q
    · -- the cell is NaN: it is first overwritten with 0.0
      obtain ⟨rs2, hrec, hvals, hrel⟩ := ih htail (round3 t)
      have hset0 : getCell (setCell r col (Value.vNum (some 0))) col =
          some (Value.vNum (some 0)) := getCell_setCell_self r col _ hgsome
      have hset0some : (getCell (setCell r col (Value.vNum (some 0))) col).isSome := by
        rw [hset0]; rfl
      have hhead : rawVal col (setCell (setCell r col (Value.vNum (some 0))) col
          (Value.vNum (some (round3 t)))) = some (round3 t) := by
        unfold rawVal cellD
        rw [getCell_setCell_self _ _ _ hset0some]
        rfl
      have hraw : rawVal col r = none := by
        unfold rawVal
        rw [hx]
        rfl
      refine ⟨setCell (setCell r col (Value.vNum (some 0))) col
          (Value.vNum (some (round3 t))) :: rs2, ?_, ?_, ?_⟩
      · simp only [recalcAux, hx, Option.getD_none, zero_add]
        rw [hrec]
        rfl
      · simp only [List.map_cons, hhead, hraw, claimAccumGo, Option.getD_none, add_zero]
        rw [hvals]
      · refine List.Forall₂.cons ?_ hrel
        intro c2 hc2
        rw [getCell_setCell_ne _ _ _ _ hc2, getCell_setCell_ne _ _ _ _ hc2]
    · -- the cell holds the number q
      obtain ⟨rs2, hrec, hvals, hrel⟩ := ih htail (round3 (q + t))
      have hhead : rawVal col (setCell r col (Value.vNum (some (round3 (q + t))))) =
          some (round3 (q + t)) := by
        unfold rawVal cellD
        rw [getCell_setCell_self _ _ _ hgsome]
        rfl
      have hraw : rawVal col r = some q := by
        unfold rawVal
        rw [hx]
        rfl
      refine ⟨setCell r col (Value.vNum (some (round3 (q + t)))) :: rs2, ?_, ?_, ?_⟩
      · simp only [recalcAux, hx, Option.getD_some]
        rw [hrec]
        rfl
      · simp only [List.map_cons, hhead, hraw, claimAccumGo, Option.getD_some]
        rw [add_comm t q, hvals]
      · refine List.Forall₂.cons ?_ hrel
        intro c2 hc2
        rw [getCell_setCell_ne _ _ _ _ hc2]

theorem recalculateData_ok (df : DataFrame) (col : String)
    (hcol : col ∈ df.cols) (hnum : ∀ r ∈ df.rows, numericCellB col r = true) :
    ∃ df2, recalculateData df col = .ok df2 ∧ df2.cols = df.cols ∧
      colValues df2 col = (claimAccum (colValues df col)).map some ∧
      List.Forall₂ (otherColsEq col) df.rows df2.rows := by
  rcases hrows : df.rows with _ | ⟨r, rs⟩
  · refine ⟨⟨df.cols, []⟩, ?_, rfl, ?_, ?_⟩
    · simp only [recalculateData, if_pos hcol, hrows]
      rfl
    · simp [colValues, hrows, claimAccum]
    · simp [hrows]
  · have hr : numericCellB col r = true := by
      apply hnum; rw [hrows]; exact List.mem_cons_self r rs
    rw [numericCellB, Bool.and_eq_true, Option.isSome_iff_exists, Option.isSome_iff_exists] at hr
    obtain ⟨⟨w, hg⟩, ⟨x, hx⟩⟩ := hr
    have hgsome : (getCell r col).isSome := by rw [hg]; rfl
    have htail : ∀ u ∈ rs, numericCellB col u = true := by
      intro u hu; apply hnum; rw [hrows]; exact List.mem_cons_of_mem r hu
    rcases x with _ | q
    · -- first row NaN: set to 0.0, running total 0
      obtain ⟨rs2, hrec, hvals, hrel⟩ := recalcAux_ok col rs htail 0
      have hhead : rawVal col (setCell r col (Value.vNum (some 0))) = some 0 := by
        unfold rawVal cellD
        rw [getCell_setCell_self _ _ _ hgsome]
        rfl
      have hraw : rawVal col r = none := by
        unfold rawVal
        rw [hx]
        rfl
      have hstep : recalcAux col none df.rows =
          .ok (setCell r col (Value.vNum (some 0)) :: rs2) := by
        rw [hrows]
        simp only [recalcAux, hx, Option.getD_none]
        rw [hrec]
        rfl
      refine ⟨⟨df.cols, setCell r col (Value.vNum (some 0)) :: rs2⟩, ?_, rfl, ?_, ?_⟩
      · simp only [recalculateData, if_pos hcol, hstep]
        rfl
      · simp only [colValues, hrows, List.map_cons, hhead, hraw, claimAccum,
          Option.getD_none]
        rw [hvals]
      · exact List.Forall₂.cons
          (fun c2 hc2 => getCell_setCell_ne _ _ _ _ hc2) hrel
    · -- first row holds the number q: kept unchanged
      obtain ⟨rs2, hrec, hvals, hrel⟩ := recalcAux_ok col rs htail q
      have hraw : rawVal col r = some q := by
        unfold rawVal
        rw [hx]
        rfl
      have hstep : recalcAux col none df.rows = .ok (r :: rs2) := by
        rw [hrows]
        simp only [recalcAux, hx, Option.getD_some]
        rw [hrec]
        rfl
      refine ⟨⟨df.cols, r :: rs2⟩, ?_, rfl, ?_, ?_⟩
      · simp only [recalculateData, if_pos hcol, hstep]
        rfl
      · simp only [colValues, hrows, List.map_cons, hraw, claimAccum, Option.getD_some]
        rw [hvals]
      · exact List.Forall₂.cons (fun c2 _ => rfl) hrel

theorem round3_mono {a b : ℚ} (h : a ≤ b) : round3 a ≤ round3 b := by
  unfold round3
  rw [div_le_div_iff_of_pos_right (by norm_num : (0 : ℚ) < 1000)]
  have : round (a * 1000) ≤ round (b * 1000) := by
    rw [round_eq, round_eq]
    exact Int.floor_mono (by linarith)
  exact_mod_cast this

theorem round3_thousandth (k : ℤ) : round3 ((k : ℚ) / 1000) = (k : ℚ) / 1000 := by
  unfold round3
  rw [div_mul_cancel₀ _ (by norm_num : (1000 : ℚ) ≠ 0), round_intCast]

theorem le_round3_add {t v : ℚ} (ht : ∃ k : ℤ, t = (k : ℚ) / 1000) (hv : 0 ≤ v) :
    t ≤ round3 (t + v) := by
  obtain ⟨k, rfl⟩ := ht
  calc (k : ℚ) / 1000 = round3 ((k : ℚ) / 1000) := (round3_thousandth k).symm
    _ ≤ round3 ((k : ℚ) / 1000 + v) := round3_mono (by linarith)

theorem chain_claimAccumGo (vs : List (Option ℚ)) :
    ∀ t : ℚ, (∃ k : ℤ, t = (k : ℚ) / 1000) → (∀ v ∈ vs, 0 ≤ v.getD 0) →
    List.Chain' (· ≤ ·) (t :: claimAccumGo t vs) := by
  induction vs with
  | nil => intro t _ _; exact List.chain'_singleton t
  | cons v vs ih =>
    intro t ht hv
    have h0 : 0 ≤ v.getD 0 := hv v (List.mem_cons_self v vs)
    have htail : ∀ u ∈ vs, 0 ≤ u.getD 0 :=
      fun u hu => hv u (List.mem_cons_of_mem v hu)
    simp only [claimAccumGo]
    exact List.chain'_cons.2
      ⟨le_round3_add ht h0, ih (round3 (t + v.getD 0)) ⟨_, rfl⟩ htail⟩

theorem chain_claimAccum_tail (vs : List (Option ℚ)) (h : ∀ v ∈ vs, 0 ≤ v.getD 0) :
    List.Chain' (· ≤ ·) (claimAccum vs).tail := by
  match vs with
  | [] => simp [claimAccum]
  | [v] => simp [claimAccum, claimAccumGo]
  | v0 :: v1 :: vs =>
    simp only [claimAccum, claimAccumGo, List.tail_cons]
    exact chain_claimAccumGo vs _ ⟨_, rfl⟩
      (fun u hu => h u (by simp only [List.mem_cons] at hu ⊢; tauto))

theorem recalculateData_cols (df df2 : DataFrame) (col : String)
    (h : recalculateData df col = .ok df2) : df2.cols = df.cols := by
  unfold recalculateData at h
  by_cases hc : col ∈ df.cols
  · rw [if_pos hc] at h
    rcases ha : recalcAux col none df.rows with e | rs
    · rw [ha] at h; cases h
    · rw [ha] at h
      cases h
      rfl
  · rw [if_neg hc] at h; cases h

theorem generateImportDataFile_cols (df : DataFrame) (d : OutputFileDefinition)
    (o : Option DataFrame) (df2 : DataFrame)
    (h : generateImportDataFile df d = .ok (o, df2)) : df2.cols = df.cols := by
  unfold generateImportDataFile at h
  by_cases hv : d.valueColumnName ∈ df.cols
  · rw [if_pos hv] at h
    rcases hf : filterData df d.dataFilters with e | fdf
    · rw [hf] at h; cases h
    · rw [hf] at h
      dsimp only at h
      have hfc : fdf.cols = df.cols := filterData_cols _ _ _ hf
      by_cases hr : d.recalculate
      · rw [if_pos hr] at h
        rcases hrc : recalculateData fdf d.valueColumnName with e | rdf
        · rw [hrc] at h; cases h
        · rw [hrc] at h
          dsimp only at h
          cases h
          have hrd : rdf.cols = fdf.cols := recalculateData_cols _ _ _ hrc
          by_cases he : d.dataFilters.isEmpty
          · rw [if_pos he, hrd, hfc]
          · rw [if_neg he]
      · rw [if_neg hr] at h
        cases h
        rfl
  · rw [if_neg hv] at h
    cases h
    rfl

/-
  Claim theorems.
-/

/-- C1: for every date-sorted dataset with the value column present and
numeric, `recalculateData` performs the sequential fold in row order that
the spec describes: the first row's value is kept unchanged (or set to
0.0 if missing/NaN) and becomes the running total; each subsequent row's
stored value becomes the previous row's accumulated total plus its own
raw value (a missing/NaN value contributing 0.0), rounded to 3 decimal
places after each addition (`claimAccum` is that description verbatim).
In particular, input values [10, 5, NaN] yield [10.0, 15.0, 15.0] (see
the witness). -/
theorem recalculateData_sequential_fold (df : DataFrame) (col : String)
    (hcol : col ∈ df.cols) (hnum : ∀ r ∈ df.rows, numericCellB col r = true) :
    ∃ df2, recalculateData df col = .ok df2 ∧
      colValues df2 col = (claimAccum (colValues df col)).map some := by
  obtain ⟨df2, h1, _, h3, _⟩ := recalculateData_ok df col hcol hnum
  exact ⟨df2, h1, h3⟩

/-- Witness for C1 at Scenario A: values [10, 5, NaN] yield [10, 15, 15]. -/
theorem recalculateData_sequential_fold_witness :
    ("V" ∈ dfScenarioA.cols) ∧
    (∀ r ∈ dfScenarioA.rows, numericCellB "V" r = true) ∧
    ∃ df2, recalculateData dfScenarioA "V" = .ok df2 ∧
      colValues df2 "V" = [some 10, some 15, some 15] := by
  refine ⟨by decide, by decide, ?_⟩
  obtain ⟨df2, h1, h2⟩ :=
    recalculateData_sequential_fold dfScenarioA "V" (by decide) (by decide)
  refine ⟨df2, h1, ?_⟩
  have hcv : colValues dfScenarioA "V" = [some 10, some 5, none] := rfl
  rw [h2, hcv]
  simp only [claimAccum, claimAccumGo, Option.getD_some, Option.getD_none,
    List.map_cons, List.map_nil]
  norm_num [round3, round_eq]

/-- C2 counterexample: the raw values 10.0004 and 0 are non-negative, yet
the output value column is [10.0004, 10.0], which is not non-decreasing:
the first row is kept unrounded while the second row's sum is rounded
down below it.  The claim fails as stated. -/
theorem recalculateData_monotone_cex :
    (∀ v ∈ colValues dfMono "V", 0 ≤ v.getD 0) ∧
    (recalculateData dfMono "V").map (fun d => colValues d "V") =
      .ok [some (10 + 1 / 2500), some 10] ∧
    ¬ List.Chain' (· ≤ ·) [(10 + 1 / 2500 : ℚ), 10] := by
  have hcv : colValues dfMono "V" = [some (10 + 1 / 2500), some 0] := rfl
  refine ⟨?_, ?_, ?_⟩
  · intro v hv
    rw [hcv] at hv
    simp only [List.mem_cons, List.not_mem_nil, or_false] at hv
    rcases hv with rfl | rfl <;> norm_num
  · have h1 : (recalculateData dfMono "V").map (fun d => colValues d "V") =
        .ok [some (10 + 1 / 2500), some (round3 (0 + (10 + 1 / 2500)))] := rfl
    rw [h1]
    norm_num [round3, round_eq]
  · norm_num [List.chain'_cons, List.chain'_singleton]

/-- C2 (amended): for every dataset whose raw values in the (present,
numeric) value column are all non-negative or missing, the value column
returned by `recalculateData` is non-decreasing from the second row
onward, and its first element equals the first input row's value (or 0 if
missing).  Non-decrease of the whole sequence, first row included, fails:
when the first raw value is not a multiple of 0.001, rounding may pull
the second value below it (see the counterexample). -/
theorem recalculateData_monotone_from_second (df : DataFrame) (col : String)
    (hcol : col ∈ df.cols) (hnum : ∀ r ∈ df.rows, numericCellB col r = true)
    (hpos : ∀ v ∈ colValues df col, 0 ≤ v.getD 0) :
    ∃ (df2 : DataFrame) (qs : List ℚ), recalculateData df col = .ok df2 ∧
      colValues df2 col = qs.map some ∧
      List.Chain' (· ≤ ·) qs.tail ∧
      qs.head? = ((colValues df col).head?).map (fun v => v.getD 0) := by
  obtain ⟨df2, h1, _, h3, _⟩ := recalculateData_ok df col hcol hnum
  refine ⟨df2, claimAccum (colValues df col), h1, h3,
    chain_claimAccum_tail _ hpos, ?_⟩
  cases hv : colValues df col with
  | nil => simp [claimAccum]
  | cons v vs => simp [claimAccum]

/-- Witness for the amended C2 at Scenario A. -/
theorem recalculateData_monotone_from_second_witness :
    ("V" ∈ dfScenarioA.cols) ∧
    (∀ r ∈ dfScenarioA.rows, numericCellB "V" r = true) ∧
    (∀ v ∈ colValues dfScenarioA "V", 0 ≤ v.getD 0) ∧
    ∃ (df2 : DataFrame) (qs : List ℚ), recalculateData dfScenarioA "V" = .ok df2 ∧
      colValues df2 "V" = qs.map some ∧
      List.Chain' (· ≤ ·) qs.tail ∧
      qs.head? = ((colValues dfScenarioA "V").head?).map (fun v => v.getD 0) := by
  have hpos : ∀ v ∈ colValues dfScenarioA "V", 0 ≤ v.getD 0 := by
    intro v hv
    have hcv : colValues dfScenarioA "V" = [some 10, some 5, none] := rfl
    rw [hcv] at hv
    simp only [List.mem_cons, List.not_mem_nil, or_false] at hv
    rcases hv with rfl | rfl | rfl <;> norm_num
  exact ⟨by decide, by decide, hpos,
    recalculateData_monotone_from_second dfScenarioA "V" (by decide) (by decide)
      hpos⟩

/-- C3 (code demonstration at the failing input): producing an output
with an empty filter list and recalculate set mutates the shared base
frame in place (`filterData` with no filters returns the base itself and
`recalculateData` writes into it).  A second, identical output definition
then reads the mutated base: the first file holds values [10, 15], the
second [10, 25] — the base was not left unchanged. -/
theorem runOutputs_shared_base_mutation :
    (runOutputs dfShared [defRecalc, defRecalc]).map
        (fun l => l.map (fun p => colValues p.2 "V")) =
      .ok [[some 10, some 15], [some 10, some 25]] := by
  have h1 : (runOutputs dfShared [defRecalc, defRecalc]).map
      (fun l => l.map (fun p => colValues p.2 "V")) =
    .ok [[some 10, some (round3 (5 + 10))],
         [some 10, some (round3 (round3 (5 + 10) + 10))]] := rfl
  rw [h1]
  norm_num [round3, round_eq]

/-- C5: for every dataset and ordered filter list whose columns all
exist, `filterData` retains exactly the rows on which every filter's test
holds — the test being `filterTest`: the string form of the row's cell in
the filter's column contains a regex match of the pattern (search
semantics), inverted when the filter is exclusive — composing by AND,
with the empty list returning all rows and output order equal to input
order.  Scenario B is the witness. -/
theorem filterData_conjunction (df : DataFrame) (fs : List DataFilter)
    (h : ∀ f ∈ fs, f.column ∈ df.cols) :
    filterData df fs =
      .ok ⟨df.cols, df.rows.filter (fun r => fs.all (fun g => filterTest g r))⟩ :=
  filterData_ok df.cols fs h df.rows

/-- Witness for C5 at Scenario B: an inclusive filter (column Type,
pattern High) on rows typed High, Low, High retains rows 1 and 3 in
order. -/
theorem filterData_conjunction_witness :
    (∀ f ∈ [typeHighFilter], f.column ∈ dfTypes.cols) ∧
    filterData dfTypes [typeHighFilter] =
      .ok ⟨["Datum", "Type"],
           [[("Datum", .vInt 0), ("Type", .vStr "High")],
            [("Datum", .vInt 2), ("Type", .vStr "High")]]⟩ := by
  refine ⟨by decide, ?_⟩
  rw [filterData_conjunction dfTypes [typeHighFilter] (by decide)]
  decide

/-- C6: each additional filter narrows or preserves the result: with all
referenced columns present, the row count of `filterData df fs` is at
most that of `filterData df fs.dropLast`. -/
theorem filterData_narrowing (df : DataFrame) (fs : List DataFilter)
    (h : ∀ f ∈ fs, f.column ∈ df.cols) :
    ∃ dfa dfb, filterData df fs = .ok dfa ∧
      filterData df fs.dropLast = .ok dfb ∧
      dfa.rows.length ≤ dfb.rows.length := by
  have hsub : ∀ f ∈ fs.dropLast, f.column ∈ df.cols :=
    fun f hf => h f ((List.dropLast_sublist fs).subset hf)
  refine ⟨_, _, filterData_ok df.cols fs h df.rows,
    filterData_ok df.cols fs.dropLast hsub df.rows, ?_⟩
  apply List.Sublist.length_le
  apply List.monotone_filter_right
  intro r hr
  simp only [List.all_eq_true] at hr ⊢
  exact fun g hg => hr g ((List.dropLast_sublist fs).subset hg)

/-- Witness for C6: adding an exclusive filter on H to the inclusive
High filter shrinks Scenario B's result (0 rows against 2). -/
theorem filterData_narrowing_witness :
    (∀ f ∈ [typeHighFilter, ⟨"Type", literalRe "H", false⟩],
      DataFilter.column f ∈ dfTypes.cols) ∧
    ∃ dfa dfb,
      filterData dfTypes [typeHighFilter, ⟨"Type", literalRe "H", false⟩] = .ok dfa ∧
      filterData dfTypes
        [typeHighFilter, ⟨"Type", literalRe "H", false⟩].dropLast = .ok dfb ∧
      dfa.rows.length ≤ dfb.rows.length := by
  exact ⟨by decide,
    filterData_narrowing dfTypes [typeHighFilter, ⟨"Type", literalRe "H", false⟩]
      (by decide)⟩

/-- C7: an output definition whose value column is absent from the base
frame is skipped without error and writes no file, and the remaining
output definitions are processed exactly as if it were not there. -/
theorem runOutputs_skips_missing_valueColumn (df : DataFrame)
    (ds1 ds2 : List OutputFileDefinition) (d : OutputFileDefinition)
    (h : d.valueColumnName ∉ df.cols) :
    runOutputs df (ds1 ++ d :: ds2) = runOutputs df (ds1 ++ ds2) := by
  induction ds1 generalizing df with
  | nil =>
    have hskip : generateImportDataFile df d = .ok (none, df) := by
      unfold generateImportDataFile
      rw [if_neg h]
    simp only [List.nil_append, runOutputs, hskip]
  | cons d1 ds1 ih =>
    rcases hg : generateImportDataFile df d1 with e | ⟨o, df2⟩
    · simp only [List.cons_append, runOutputs, hg]
    · have hcols : df2.cols = df.cols := generateImportDataFile_cols df d1 o df2 hg
      have h2 : d.valueColumnName ∉ df2.cols := by rw [hcols]; exact h
      rcases o with _ | out
      · simp only [List.cons_append, runOutputs, hg]
        exact ih df2 h2
      · simp only [List.cons_append, runOutputs, hg]
        exact congrArg (Except.map _) (ih df2 h2)

/-- Witness for C7: the output definition on the missing column W is
skipped and the surrounding run is unchanged. -/
theorem runOutputs_skips_missing_valueColumn_witness :
    (defMissing.valueColumnName ∉ dfShared.cols) ∧
    runOutputs dfShared ([defPlain] ++ defMissing :: [defPlain]) =
      runOutputs dfShared ([defPlain] ++ [defPlain]) := by
  exact ⟨by decide,
    runOutputs_skips_missing_valueColumn dfShared [defPlain] [defPlain] defMissing
      (by decide)⟩

/-- C8: assembly keeps exactly the rows whose parsed date lies inside
[1970-01-01, 2099-12-31] — the retained rows of `prepareData` are a
permutation of the date-filtered input rows, no in-bound row is dropped
and no out-of-bound row kept; in particular the row dated 01-01-1960 of
`dfSanity` is excluded while its 2020 row is retained. -/
theorem prepareData_sanity_bound (df : DataFrame) :
    List.Perm (prepareData df).rows
      (df.rows.filter (dateOK inputFileDateColumnName)) ∧
    (prepareData dfSanity).rows =
      [[("Datum", .vInt (dmyToEpochSeconds 1 1 2020)), ("V", .vNum (some 2))]] := by
  constructor
  · exact List.perm_insertionSort _ _
  · decide

/-- C9 counterexample: with a filter on the absent column Zzz, the run
aborts with `KeyError` and the following output definition is never
processed, although alone it would produce its file: the error is not
caught per output definition. -/
theorem runOutputs_filter_column_missing_cex :
    runOutputs dfShared [defBadFilter, defPlain] =
      .error (.columnNotFound "Zzz") ∧
    (runOutputs dfShared [defPlain]).map (fun l => l.map (fun p => p.1)) =
      .ok ["plain.csv"] := by
  exact ⟨by decide, by decide⟩

/-- C9 (amended): if some filter's column is absent from the dataset, the
filter step fails with `KeyError` (`ColumnNotFoundError`); the exception
is not caught and aborts the run, so the remaining output definitions are
not processed.  (Only a missing value column is checked in advance and
leads to skipping; a missing filter column is not.) -/
theorem runOutputs_filter_column_missing_aborts (df : DataFrame)
    (d : OutputFileDefinition) (ds : List OutputFileDefinition) (f : DataFilter)
    (hv : d.valueColumnName ∈ df.cols) (hf : f ∈ d.dataFilters)
    (hcol : f.column ∉ df.cols) :
    ∃ e, runOutputs df (d :: ds) = .error e := by
  obtain ⟨e, he⟩ := filterData_err df.cols d.dataFilters ⟨f, hf, hcol⟩ df.rows
  have he2 : filterData df d.dataFilters = .error e := he
  have hgen : generateImportDataFile df d = .error e := by
    unfold generateImportDataFile
    rw [if_pos hv, he2]
  exact ⟨e, by simp only [runOutputs, hgen]⟩

/-- Witness for the amended C9. -/
theorem runOutputs_filter_column_missing_aborts_witness :
    (defBadFilter.valueColumnName ∈ dfShared.cols) ∧
    ((⟨"Zzz", literalRe "x", true⟩ : DataFilter) ∈ defBadFilter.dataFilters) ∧
    ("Zzz" ∉ dfShared.cols) ∧
    ∃ e, runOutputs dfShared (defBadFilter :: [defPlain]) = .error e := by
  exact ⟨by decide, by decide, by decide,
    runOutputs_filter_column_missing_aborts dfShared defBadFilter [defPlain]
      ⟨"Zzz", literalRe "x", true⟩ (by decide) (by decide) (by decide)⟩

/-- C10: with the value column present and numeric, `recalculateData`
preserves the column labels, the number of rows, their order, and every
cell outside the value column (index by index, every other column reads
the same before and after); only the value column's cells are
overwritten. -/
theorem recalculateData_frame_preservation (df : DataFrame) (col : String)
    (hcol : col ∈ df.cols) (hnum : ∀ r ∈ df.rows, numericCellB col r = true) :
    ∃ df2, recalculateData df col = .ok df2 ∧ df2.cols = df.cols ∧
      df2.rows.length = df.rows.length ∧
      ∀ i (h1 : i < df.rows.length) (h2 : i < df2.rows.length) (c2 : String),
        c2 ≠ col →
        getCell (df2.rows.get ⟨i, h2⟩) c2 = getCell (df.rows.get ⟨i, h1⟩) c2 := by
  obtain ⟨df2, h1, h2, _, h4⟩ := recalculateData_ok df col hcol hnum
  refine ⟨df2, h1, h2, h4.length_eq.symm, ?_⟩
  intro i hi1 hi2 c2 hc2
  exact forall₂_get h4 i hi1 hi2 c2 hc2

/-- Witness for C10 at Scenario A. -/
theorem recalculateData_frame_preservation_witness :
    ("V" ∈ dfScenarioA.cols) ∧
    (∀ r ∈ dfScenarioA.rows, numericCellB "V" r = true) ∧
    ∃ df2, recalculateData dfScenarioA "V" = .ok df2 ∧
      df2.cols = dfScenarioA.cols ∧
      df2.rows.length = dfScenarioA.rows.length ∧
      ∀ i (h1 : i < dfScenarioA.rows.length) (h2 : i < df2.rows.length)
        (c2 : String), c2 ≠ "V" →
        getCell (df2.rows.get ⟨i, h2⟩) c2 = getCell (dfScenarioA.rows.get ⟨i, h1⟩) c2 := by
  exact ⟨by decide, by decide,
    recalculateData_frame_preservation dfScenarioA "V" (by decide) (by decide)⟩

end EnecoDataPrepare

